import Mathlib

/-!
Formal model of the toktoken proxy: the Anthropic/OpenAI request and response
translators, the vLLM-compatibility preprocessing steps, the structural token
counter, and the tool-call ID normalizer, together with theorems about the
properties these functions satisfy.

The tokenizer itself (tiktoken) is external; every token-counting definition is
parameterized by an encoding function.  A fallible encoder has type
String to Option Nat, where none models a thrown exception; a result of none for
a whole computation models the exception propagating out of the function.
-/

namespace Toktoken

/-- JSON values, as passed around by the permissive (Zod-free) types of the
proxy.  Used to model arbitrary payloads such as tool inputs and schemas. -/
inductive Json where
  | null
  | bool (b : Bool)
  | num (n : Int)
  | str (s : String)
  | arr (items : List Json)
  | obj (fields : List (String × Json))

/-- JavaScript truthiness of a JSON value: null, false, 0 and the empty string
are falsy; arrays and objects (even empty ones) are truthy. -/
def jsTruthy : Json → Bool
  | .null => false
  | .bool b => b
  | .num n => n != 0
  | .str s => s != ""
  | .arr _ => true
  | .obj _ => true

/-- Escaping of one character inside a JSON string literal (quote and
backslash, the cases relevant to JSON.stringify on plain text). -/
def escChar (c : Char) : List Char :=
  if c = '"' then ['\\', '"']
  else if c = '\\' then ['\\', '\\']
  else [c]

/-- Escaping of a whole string for a JSON string literal. -/
def escapeJson (s : String) : String :=
  ⟨s.data.foldr (fun c acc => escChar c ++ acc) []⟩

mutual

/-- JSON.stringify with no extra whitespace, as used by the token counter and
the content sanitizer. -/
def serializeJson : Json → String
  | .null => "null"
  | .bool b => cond b "true" "false"
  | .num n => toString n
  | .str s => "\"" ++ escapeJson s ++ "\""
  | .arr items => "[" ++ serializeJsonList items ++ "]"
  | .obj fields => "\x7b" ++ serializeJsonObj fields ++ "\x7d"

/-- Comma-separated serialization of the elements of a JSON array. -/
def serializeJsonList : List Json → String
  | [] => ""
  | [j] => serializeJson j
  | j :: rest => serializeJson j ++ "," ++ serializeJsonList rest

/-- Comma-separated serialization of the fields of a JSON object. -/
def serializeJsonObj : List (String × Json) → String
  | [] => ""
  | [(k, v)] => "\"" ++ escapeJson k ++ "\":" ++ serializeJson v
  | (k, v) :: rest =>
      "\"" ++ escapeJson k ++ "\":" ++ serializeJson v ++ "," ++ serializeJsonObj rest

end

namespace Tokens

/-- Content block shape declared locally by src/utils/tokens.ts: a type tag and
optional text, tool input, and tool-result content (a string or an array). -/
structure ContentBlock where
  type : String
  text : Option String := none
  input : Option Json := none
  content : Option (String ⊕ List Json) := none

/-- Message shape declared locally by src/utils/tokens.ts: content is a string
or an array of content blocks. -/
structure Message where
  content : String ⊕ List ContentBlock

/-- Tool shape declared locally by src/utils/tokens.ts. -/
structure Tool where
  name : Option String := none
  description : Option String := none
  input_schema : Option Json := none

/-- countTokens from src/utils/tokens.ts: encodes the text, and on an encoding
failure (modelled by the encoder returning none) falls back to the
character-based estimate ceil(length / 4), written (length + 3) / 4 on Nat. -/
def countTokens (enc : String → Option Nat) (text : String) : Nat :=
  match enc text with
  | some n => n
  | none => (text.length + 3) / 4

/-- Token contribution of one content block inside the message loop of
calculateTokenCount (src/utils/tokens.ts lines 49-59).  The result none models
an exception from the encoder propagating out: note that the loop body applies
enc.encode directly, with no try/catch.  A text block with falsy (absent or
empty) text and a tool_use block with falsy input are skipped by the source's
truthiness guards; a tool_result block is encoded unconditionally, so an absent
content field reaches the encoder as JSON.stringify(undefined) = undefined,
which the encoder rejects (modelled as none). -/
def blockTokensE (enc : String → Option Nat) (b : ContentBlock) : Option Nat :=
  if b.type = "text" then
    match b.text with
    | some t => if t ≠ "" then enc t else some 0
    | none => some 0
  else if b.type = "tool_use" then
    match b.input with
    | some j => if jsTruthy j then enc (serializeJson j) else some 0
    | none => some 0
  else if b.type = "tool_result" then
    match b.content with
    | some (Sum.inl s) => enc s
    | some (Sum.inr xs) => enc (serializeJson (Json.arr xs))
    | none => none
  else some 0

/-- Token contribution of one tool in calculateTokenCount (src/utils/tokens.ts
lines 78-88): name, description and JSON-serialized input schema, each behind
the source's truthiness guard. -/
def toolTokensE (enc : String → Option Nat) (t : Tool) : Option Nat :=
  (match t.name with
   | some s => if s ≠ "" then enc s else some 0
   | none => some 0).bind (fun n =>
  (match t.description with
   | some s => if s ≠ "" then enc s else some 0
   | none => some 0).bind (fun d =>
  (match t.input_schema with
   | some j => if jsTruthy j then enc (serializeJson j) else some 0
   | none => some 0).map (fun sc => n + d + sc)))

/-- The message loop of calculateTokenCount (src/utils/tokens.ts lines 44-63),
threading the running total through every message and block. -/
def messagesTokensE (enc : String → Option Nat) (messages : List Message) (acc : Nat) :
    Option Nat :=
  messages.foldlM (fun acc m =>
    match m.content with
    | Sum.inl s => (enc s).map (acc + ·)
    | Sum.inr blocks =>
        blocks.foldlM (fun a b => (blockTokensE enc b).map (a + ·)) acc) acc

/-- The system-prompt section of calculateTokenCount (src/utils/tokens.ts
lines 66-74): a string system prompt is encoded whole; an array contributes
every item with type text and a string text field (no truthiness guard on the
text here, only a typeof check). -/
def systemTokensE (enc : String → Option Nat)
    (system : Option (String ⊕ List ContentBlock)) (acc : Nat) : Option Nat :=
  match system with
  | some (Sum.inl s) => (enc s).map (acc + ·)
  | some (Sum.inr items) =>
      items.foldlM (fun a it =>
        if it.type = "text" then
          match it.text with
          | some t => (enc t).map (a + ·)
          | none => some a
        else some a) acc
  | none => some acc

/-- The tools loop of calculateTokenCount (src/utils/tokens.ts lines 77-89). -/
def toolsTokensE (enc : String → Option Nat) (tools : Option (List Tool)) (acc : Nat) :
    Option Nat :=
  match tools with
  | some ts => ts.foldlM (fun a t => (toolTokensE enc t).map (a + ·)) acc
  | none => some acc

/-- calculateTokenCount from src/utils/tokens.ts: one running total over the
message contents, then the system prompt, then the tools.  The encoder is
applied directly (no try/catch anywhere in this function), so a failing
encoding aborts the whole computation, modelled by the Option monad. -/
def calculateTokenCountE (enc : String → Option Nat) (messages : List Message)
    (system : Option (String ⊕ List ContentBlock)) (tools : Option (List Tool)) :
    Option Nat := do
  let afterMessages ← messagesTokensE enc messages 0
  let afterSystem ← systemTokensE enc system afterMessages
  toolsTokensE enc tools afterSystem

/-- Predicate (computable) that every tool_result block in the messages carries
a content field.  On such inputs the structural counter never feeds undefined
to the encoder. -/
def noMissingToolResultContent (messages : List Message) : Bool :=
  messages.all (fun m =>
    match m.content with
    | Sum.inl _ => true
    | Sum.inr blocks =>
        blocks.all (fun b => (b.type != "tool_result") || b.content.isSome))

/-- Taken from the spec's words, for comparison with the source: the literal
reading of the claimed per-block contribution, in which the token count of
every text block's text, the JSON-serialized form of every tool_use input and
the JSON-serialized form of every tool_result content are summed, with no
truthiness guards and with string-valued tool_result content JSON-serialized
(that is, quoted) like any other value. -/
def specLiteralBlockCount (e : String → Nat) (b : ContentBlock) : Nat :=
  if b.type = "text" then (b.text.map e).getD 0
  else if b.type = "tool_use" then (b.input.map (fun j => e (serializeJson j))).getD 0
  else if b.type = "tool_result" then
    match b.content with
    | some (Sum.inl s) => e (serializeJson (Json.str s))
    | some (Sum.inr xs) => e (serializeJson (Json.arr xs))
    | none => 0
  else 0

/-- Taken from the spec's words: the system-prompt contribution, the token
count of every system-prompt text. -/
def specSystemCount (e : String → Nat)
    (system : Option (String ⊕ List ContentBlock)) : Nat :=
  match system with
  | some (Sum.inl s) => e s
  | some (Sum.inr items) =>
      (items.map (fun it => if it.type = "text" then (it.text.map e).getD 0 else 0)).sum
  | none => 0

/-- Taken from the spec's words: for each tool, the token counts of its name,
description, and JSON-serialized input schema, whenever present. -/
def specLiteralToolCount (e : String → Nat) (t : Tool) : Nat :=
  (t.name.map e).getD 0 + (t.description.map e).getD 0 +
    (t.input_schema.map (fun j => e (serializeJson j))).getD 0

/-- Taken from the spec's words: the total of the literal reading of the
claimed structural sum. -/
def specLiteralCount (e : String → Nat) (messages : List Message)
    (system : Option (String ⊕ List ContentBlock)) (tools : Option (List Tool)) : Nat :=
  (messages.map (fun m =>
    match m.content with
    | Sum.inl s => e s
    | Sum.inr blocks => (blocks.map (specLiteralBlockCount e)).sum)).sum
  + specSystemCount e system
  + ((tools.getD []).map (specLiteralToolCount e)).sum

/-- Amended per-block contribution: as the literal reading, except that a
tool_use input that is a falsy JSON value is skipped, and a string-valued
tool_result content is counted as the raw string rather than JSON-quoted. -/
def specBlockCount (e : String → Nat) (b : ContentBlock) : Nat :=
  if b.type = "text" then (b.text.map e).getD 0
  else if b.type = "tool_use" then
    match b.input with
    | some j => if jsTruthy j then e (serializeJson j) else 0
    | none => 0
  else if b.type = "tool_result" then
    match b.content with
    | some (Sum.inl s) => e s
    | some (Sum.inr xs) => e (serializeJson (Json.arr xs))
    | none => 0
  else 0

/-- Amended per-tool contribution: as the literal reading, except that a falsy
JSON input schema is skipped. -/
def specToolCount (e : String → Nat) (t : Tool) : Nat :=
  (t.name.map e).getD 0 + (t.description.map e).getD 0 +
    (match t.input_schema with
     | some j => if jsTruthy j then e (serializeJson j) else 0
     | none => 0)

/-- Amended structural sum. -/
def specCount (e : String → Nat) (messages : List Message)
    (system : Option (String ⊕ List ContentBlock)) (tools : Option (List Tool)) : Nat :=
  (messages.map (fun m =>
    match m.content with
    | Sum.inl s => e s
    | Sum.inr blocks => (blocks.map (specBlockCount e)).sum)).sum
  + specSystemCount e system
  + ((tools.getD []).map (specToolCount e)).sum

end Tokens

/-- Message roles used by both protocols (system appears only on the OpenAI
side, as the synthetic leading message). -/
inductive Role where
  | user
  | assistant
  | system
deriving DecidableEq

/-- Source of an Anthropic image block: a base64 payload with a media type. -/
structure ImageSource where
  type : String := "base64"
  media_type : String
  data : String

/-- Anthropic content block, with the fields read or written by the translated
functions: the type tag, text, image source, id, and tool_use_id.  Types are
permissive (no Zod), so every field other than the tag is optional. -/
structure AnthropicContentBlock where
  type : String
  text : Option String := none
  source : Option ImageSource := none
  id : Option String := none
  tool_use_id : Option String := none

/-- Anthropic chat message: role plus string or block-array content. -/
structure AnthropicMessage where
  role : Role
  content : String ⊕ List AnthropicContentBlock

/-- Anthropic request, with the scalar fields the translator copies.  Tool
specifications are opaque JSON values here; the pr-summary translator never
reads them. -/
structure AnthropicRequest where
  model : String
  messages : List AnthropicMessage
  system : Option String := none
  max_tokens : Nat
  temperature : Option Rat := none
  stream : Option Bool := none
  tools : Option (List Json) := none

/-- Anthropic usage block of a response. -/
structure AnthropicUsage where
  input_tokens : Nat
  output_tokens : Nat

/-- Anthropic response, as built by convertOpenAIToAnthropic. -/
structure AnthropicResponse where
  id : String
  type : String
  role : Role
  content : List AnthropicContentBlock
  model : String
  stop_reason : Option String
  usage : AnthropicUsage

/-- One element of an OpenAI block-array message content, as pushed by
convertAnthropicToOpenAI: a text part or an image_url part carrying a URL. -/
inductive OpenAIPart where
  | text (text : String)
  | image_url (url : String)

/-- OpenAI chat message: role plus string or part-array content. -/
structure OpenAIMessage where
  role : Role
  content : String ⊕ List OpenAIPart

/-- OpenAI request, as built by convertAnthropicToOpenAI. -/
structure OpenAIRequest where
  model : String
  messages : List OpenAIMessage
  max_tokens : Nat
  temperature : Option Rat := none
  stream : Option Bool := none

/-- Message inside an OpenAI response choice; content may be null/absent. -/
structure OpenAIResponseMessage where
  role : Role
  content : Option String

/-- One OpenAI response choice; message and finish_reason may be absent. -/
structure OpenAIChoice where
  message : Option OpenAIResponseMessage
  finish_reason : Option String

/-- OpenAI usage block. -/
structure OpenAIUsage where
  prompt_tokens : Nat
  completion_tokens : Nat

/-- OpenAI complete (non-streaming) response, with the fields read by
convertOpenAIToAnthropic; the usage block may be absent. -/
structure OpenAIResponse where
  id : String
  choices : List OpenAIChoice
  usage : Option OpenAIUsage

namespace Transform

/-- Inner loop of convertAnthropicToOpenAI over one block array
(src/transform/anthropic-to-openai.ts, the pr-summary translator): text blocks
are pushed as text parts with block.text || '' as the text, image blocks with a
source are pushed as image_url parts carrying the data URI
data:<media_type>;base64,<data>, and every other block is not pushed at all. -/
def anthropicBlocksToParts (blocks : List AnthropicContentBlock) : List OpenAIPart :=
  blocks.foldl (fun parts block =>
    if block.type = "text" then parts ++ [OpenAIPart.text (block.text.getD "")]
    else if block.type = "image" then
      match block.source with
      | some src =>
          parts ++ [OpenAIPart.image_url ("data:" ++ src.media_type ++ ";base64," ++ src.data)]
      | none => parts
    else parts) []

/-- Per-message step of convertAnthropicToOpenAI: string content passes
through; block-array content goes through anthropicBlocksToParts. -/
def anthropicMessageToOpenAI (msg : AnthropicMessage) : OpenAIMessage :=
  match msg.content with
  | Sum.inl s => ⟨msg.role, Sum.inl s⟩
  | Sum.inr blocks => ⟨msg.role, Sum.inr (anthropicBlocksToParts blocks)⟩

/-- convertAnthropicToOpenAI from the pr-summary translator: a synthetic
leading system message when request.system is truthy (present and non-empty,
per the source's if (request.system) guard), then each message converted in
order, and the scalar fields copied verbatim. -/
def convertAnthropicToOpenAI (request : AnthropicRequest) : OpenAIRequest :=
  let start : List OpenAIMessage :=
    match request.system with
    | some s => if s ≠ "" then [⟨Role.system, Sum.inl s⟩] else []
    | none => []
  let messages := request.messages.foldl (fun acc msg => acc ++ [anthropicMessageToOpenAI msg]) start
  { model := request.model
    messages := messages
    max_tokens := request.max_tokens
    temperature := request.temperature
    stream := request.stream }

/-- convertOpenAIToAnthropic from the pr-summary translator: reads the first
choice; truthy message text becomes a single text block, otherwise the content
list is empty; stop_reason is end_turn exactly when the first choice's
finish_reason is the string stop, and null otherwise; usage fields default to
0; the model field is the caller-supplied override. -/
def convertOpenAIToAnthropic (response : OpenAIResponse) (originalModel : String) :
    AnthropicResponse :=
  let choice := response.choices.head?
  let content : List AnthropicContentBlock :=
    match choice with
    | some c =>
        match c.message with
        | some m =>
            match m.content with
            | some s => if s ≠ "" then [{ type := "text", text := some s }] else []
            | none => []
        | none => []
    | none => []
  { id := response.id
    type := "message"
    role := Role.assistant
    content := content
    model := originalModel
    stop_reason :=
      if (choice.bind (fun c => c.finish_reason)) = some "stop" then some "end_turn" else none
    usage :=
      { input_tokens := (response.usage.map (fun u => u.prompt_tokens)).getD 0
        output_tokens := (response.usage.map (fun u => u.completion_tokens)).getD 0 } }

/-- Taken from the amended claim's words: the finish-reason table actually
implemented, stop maps to end_turn and everything else (tool_calls included,
and absent) maps to null. -/
def specMapFinishReason (fr : Option String) : Option String :=
  if fr = some "stop" then some "end_turn" else none

/-- Taken from the amended claim's words: the per-block mapping actually
implemented by the request translator; blocks of any type other than text, and
image blocks without a source, are dropped. -/
def specBlockToPart (b : AnthropicContentBlock) : Option OpenAIPart :=
  if b.type = "text" then some (OpenAIPart.text (b.text.getD ""))
  else if b.type = "image" then
    b.source.map (fun src =>
      OpenAIPart.image_url ("data:" ++ src.media_type ++ ";base64," ++ src.data))
  else none

/-- Taken from the amended claim's words: content mapping, block-by-block on
arrays and the identity on strings. -/
def specMapContent : (String ⊕ List AnthropicContentBlock) → (String ⊕ List OpenAIPart)
  | Sum.inl s => Sum.inl s
  | Sum.inr blocks => Sum.inr (blocks.filterMap specBlockToPart)

end Transform

namespace Routes

/-- Per-block step of normalizeToolIds (src/routes/anthropic.ts lines 123-131):
a tool_result block whose tool_use_id is truthy (present and non-empty, per
JavaScript truthiness of strings) gets its id field set to that tool_use_id,
with every other field kept by the object spread; all other blocks are
returned as they were. -/
def normBlock (block : AnthropicContentBlock) : AnthropicContentBlock :=
  if block.type = "tool_result" then
    match block.tool_use_id with
    | some toolUseId =>
        if toolUseId ≠ "" then { block with id := some toolUseId } else block
    | none => block
  else block

/-- Per-message step of normalizeToolIds: string content is returned as is;
block-array content is mapped block-by-block. -/
def normMessage (msg : AnthropicMessage) : AnthropicMessage :=
  match msg.content with
  | Sum.inl _ => msg
  | Sum.inr blocks => { msg with content := Sum.inr (blocks.map normBlock) }

/-- normalizeToolIds from src/routes/anthropic.ts (lines 118-136): maps every
message through normMessage and keeps every other request field. -/
def normalizeToolIds (req : AnthropicRequest) : AnthropicRequest :=
  { req with messages := req.messages.map normMessage }

/-- fixTrailingAssistant from src/routes/anthropic.ts (lines 139-148): when the
last message is from the assistant, a synthetic user message with content
Continue. is appended; otherwise the request is returned unchanged. -/
def fixTrailingAssistant (req : AnthropicRequest) : AnthropicRequest :=
  match req.messages.getLast? with
  | some lastMsg =>
      if lastMsg.role = Role.assistant then
        { req with messages := req.messages ++ [⟨Role.user, Sum.inl "Continue."⟩] }
      else req
  | none => req

end Routes

namespace IdNorm

/-- FNV-1a 32-bit hash of the UTF-8 bytes of a string: offset basis 2166136261,
prime 16777619, every step reduced modulo 2^32. -/
def fnv1a32 (s : String) : Nat :=
  s.toUTF8.foldl (fun h b => ((h ^^^ b.toNat) * 16777619) % 4294967296) 2166136261

/-- Base-36 digit character: 0-9 then a-z. -/
def base36digit (d : Nat) : Char :=
  if d < 10 then Char.ofNat (48 + d) else Char.ofNat (87 + d)

/-- Fuel-driven base-36 digit accumulation (most significant digit first). -/
def base36go : Nat → Nat → List Char → List Char
  | 0, _, acc => acc
  | fuel + 1, n, acc =>
      if n = 0 then acc else base36go fuel (n / 36) (base36digit (n % 36) :: acc)

/-- Base-36 rendering of a natural number. -/
def base36 (n : Nat) : String :=
  if n = 0 then "0" else ⟨base36go 32 n []⟩

/-- Padding with leading zeros and truncation to exactly 9 characters. -/
def padTo9 (t : String) : String :=
  ⟨(List.replicate (9 - t.data.length) '0' ++ t.data).take 9⟩

/-- Modelled from the spec: the tool-call ID normalizer's forward mapping.  The
implementation lives in src/utils/convert.ts, which is not among the provided
sources (only its export list is); spec section 4.3 defines it as
base36(fnv1a_32(originalId)), truncated/padded to exactly 9 characters, with no
randomness or per-process salt. -/
def shortToolId (s : String) : String :=
  padTo9 (base36 (fnv1a32 s))

end IdNorm

/-! Generic lemmas about the loop shapes used by the translated functions:
push-loops over lists (folds that append one or zero elements per step) and
exception-threading accumulation loops (monadic folds over Option). -/

theorem foldl_append_of {α β : Type} (F : List β → α → List β) (f : α → β)
    (hF : ∀ acc x, F acc x = acc ++ [f x]) :
    ∀ (l : List α) (acc : List β), l.foldl F acc = acc ++ l.map f := by
  intro l
  induction l with
  | nil => intro acc; simp
  | cons x xs ih =>
      intro acc
      rw [List.foldl_cons, hF, ih]
      simp

theorem foldl_filterMap_of {α β : Type} (F : List β → α → List β) (f : α → Option β)
    (hF : ∀ acc x, F acc x = match f x with | some y => acc ++ [y] | none => acc) :
    ∀ (l : List α) (acc : List β), l.foldl F acc = acc ++ l.filterMap f := by
  intro l
  induction l with
  | nil => intro acc; simp
  | cons x xs ih =>
      intro acc
      rw [List.foldl_cons, hF, ih]
      cases h : f x <;> simp [List.filterMap_cons, h]

theorem foldlM_add_of {α : Type} (F : Nat → α → Option Nat) (h : α → Nat) :
    ∀ (l : List α), (∀ x ∈ l, ∀ acc : Nat, F acc x = some (acc + h x)) →
    ∀ acc : Nat, l.foldlM F acc = some (acc + (l.map h).sum) := by
  intro l
  induction l with
  | nil => intro _ acc; simp
  | cons x xs ih =>
      intro hF acc
      rw [List.foldlM_cons, hF x (List.mem_cons_self x xs) acc]
      show xs.foldlM F (acc + h x) = _
      rw [ih (fun y hy => hF y (List.mem_cons_of_mem x hy)) (acc + h x)]
      simp [Nat.add_assoc]

namespace Tokens

/-- Evaluation of the source's truthiness-guarded optional-string encoding
under a never-failing encoder. -/
theorem strGuard_eq (e : String → Nat) (he : e "" = 0) (o : Option String) :
    (match o with
     | some s => if s ≠ "" then (some (e s) : Option Nat) else some 0
     | none => some 0) = some ((o.map e).getD 0) := by
  cases o with
  | none => simp
  | some n => by_cases h : n = "" <;> simp [h, he]

/-- Evaluation of the source's truthiness-guarded schema encoding under a
never-failing encoder. -/
theorem schemaGuard_eq (e : String → Nat) (o : Option Json) :
    (match o with
     | some j => if jsTruthy j then (some (e (serializeJson j)) : Option Nat) else some 0
     | none => some 0)
      = some (match o with
              | some j => if jsTruthy j then e (serializeJson j) else 0
              | none => 0) := by
  cases o with
  | none => simp
  | some j => by_cases h : jsTruthy j <;> simp [h]

/-- Per-block agreement between the source's loop body and the amended spec
contribution, under a never-failing encoder, assuming the tokenizer gives the
empty string zero tokens and the block does not hit the undefined-content
case. -/
theorem blockTokensE_eq_spec (e : String → Nat) (he : e "" = 0) (b : ContentBlock)
    (hb : b.type = "tool_result" → b.content.isSome = true) :
    blockTokensE (fun s => some (e s)) b = some (specBlockCount e b) := by
  unfold blockTokensE specBlockCount
  split_ifs with h1 h2 h3
  · cases ht : b.text with
    | none => simp
    | some t => by_cases h : t = "" <;> simp [h, he]
  · cases hi : b.input with
    | none => simp
    | some j => by_cases h : jsTruthy j <;> simp [h]
  · cases hc : b.content with
    | none =>
        have hsome := hb h3
        rw [hc] at hsome
        simp at hsome
    | some c => cases c <;> simp
  · rfl

/-- Per-tool agreement between the source's loop body and the amended spec
contribution under a never-failing encoder. -/
theorem toolTokensE_eq_spec (e : String → Nat) (he : e "" = 0) (t : Tool) :
    toolTokensE (fun s => some (e s)) t = some (specToolCount e t) := by
  simp only [toolTokensE]
  rw [strGuard_eq e he t.name, strGuard_eq e he t.description, schemaGuard_eq e t.input_schema]
  simp [specToolCount]

/-- The message loop agrees with the amended spec sum under a never-failing
encoder, on inputs whose tool_result blocks all carry content. -/
theorem messagesTokensE_eq (e : String → Nat) (he : e "" = 0) (messages : List Message)
    (hwf : noMissingToolResultContent messages = true) (acc : Nat) :
    messagesTokensE (fun s => some (e s)) messages acc
      = some (acc + (messages.map (fun m =>
          match m.content with
          | Sum.inl s => e s
          | Sum.inr blocks => (blocks.map (specBlockCount e)).sum)).sum) := by
  unfold messagesTokensE
  refine foldlM_add_of _ _ messages ?_ acc
  intro m hm acc2
  unfold noMissingToolResultContent at hwf
  rw [List.all_eq_true] at hwf
  have hmwf := hwf m hm
  cases hc : m.content with
  | inl s => simp [hc]
  | inr blocks =>
      rw [hc] at hmwf
      simp only [List.all_eq_true] at hmwf
      simp only [hc]
      refine foldlM_add_of _ _ blocks ?_ acc2
      intro b hbmem acc3
      have hb : b.type = "tool_result" → b.content.isSome = true := by
        intro hbt
        have h2 := hmwf b hbmem
        rw [hbt] at h2
        simpa using h2
      rw [blockTokensE_eq_spec e he b hb]
      simp

/-- The system-prompt section agrees with the spec system contribution under a
never-failing encoder. -/
theorem systemTokensE_eq (e : String → Nat)
    (system : Option (String ⊕ List ContentBlock)) (acc : Nat) :
    systemTokensE (fun s => some (e s)) system acc = some (acc + specSystemCount e system) := by
  cases system with
  | none => simp [systemTokensE, specSystemCount]
  | some c =>
      cases c with
      | inl s => simp [systemTokensE, specSystemCount]
      | inr items =>
          simp only [systemTokensE, specSystemCount]
          refine foldlM_add_of _ _ items ?_ acc
          intro it _ acc2
          by_cases ht : it.type = "text"
          · cases htxt : it.text with
            | none => simp [ht, htxt]
            | some t => simp [ht, htxt]
          · simp [ht]

/-- The tools loop agrees with the amended spec tools contribution under a
never-failing encoder. -/
theorem toolsTokensE_eq (e : String → Nat) (he : e "" = 0)
    (tools : Option (List Tool)) (acc : Nat) :
    toolsTokensE (fun s => some (e s)) tools acc
      = some (acc + ((tools.getD []).map (specToolCount e)).sum) := by
  cases tools with
  | none => simp [toolsTokensE]
  | some ts =>
      simp only [toolsTokensE, Option.getD_some]
      refine foldlM_add_of _ _ ts ?_ acc
      intro t _ acc2
      rw [toolTokensE_eq_spec e he t]
      simp

/-- Claim C5 (counterexample): the structural counter disagrees with the
literal reading of the claimed sum.  At an input holding a tool_use block whose
input is the JSON value false (a JavaScript-falsy value the source skips), a
tool_result block with string content (counted raw by the source, not
JSON-quoted), and a tool whose input schema is the JSON value false, the two
sides differ (with the encoder instantiated to the string length, the source
yields 3, the literal sum 15).  Moreover, at a tool_result block with no
content field, the source feeds undefined to the encoder and throws instead of
returning any sum. -/
theorem calculateTokenCount_literal_cex :
    calculateTokenCountE (fun s => some s.length)
        [⟨Sum.inr [⟨"tool_use", none, some (Json.bool false), none⟩,
                   ⟨"tool_result", none, none, some (Sum.inl "hi")⟩]⟩]
        none (some [⟨some "t", none, some (Json.bool false)⟩])
      ≠ some (specLiteralCount String.length
        [⟨Sum.inr [⟨"tool_use", none, some (Json.bool false), none⟩,
                   ⟨"tool_result", none, none, some (Sum.inl "hi")⟩]⟩]
        none (some [⟨some "t", none, some (Json.bool false)⟩])) ∧
    calculateTokenCountE (fun s => some s.length)
        [⟨Sum.inr [⟨"tool_result", none, none, none⟩]⟩] none none = none := by
  constructor
  · decide
  · decide

/-- Claim C5 (amended): with a never-failing encoder that assigns the empty
string zero tokens, the structural counter returns the amended structural sum
on every input whose tool_result blocks carry content: every text block's
text, the JSON-serialized form of every truthy tool_use input, every
tool_result content (raw when a string, JSON-serialized when an array), every
system-prompt text, and for each tool its name, description and JSON-serialized
truthy input schema.  In particular, a single user message with string content
Hello counts exactly the tokenizer's tokens for the literal string Hello. -/
theorem calculateTokenCount_spec_sum (e : String → Nat) (he : e "" = 0) :
    (∀ (messages : List Message) (system : Option (String ⊕ List ContentBlock))
       (tools : Option (List Tool)),
       noMissingToolResultContent messages = true →
       calculateTokenCountE (fun s => some (e s)) messages system tools
         = some (specCount e messages system tools)) ∧
    calculateTokenCountE (fun s => some (e s)) [⟨Sum.inl "Hello"⟩] none none
      = some (e "Hello") := by
  constructor
  · intro messages system tools hwf
    unfold calculateTokenCountE
    rw [messagesTokensE_eq e he messages hwf 0]
    show (systemTokensE (fun s => some (e s)) system _).bind _ = _
    rw [systemTokensE_eq e system _]
    show toolsTokensE (fun s => some (e s)) tools _ = _
    rw [toolsTokensE_eq e he tools _]
    simp [specCount, Nat.add_assoc]
  · simp [calculateTokenCountE, messagesTokensE, systemTokensE, toolsTokensE, List.foldlM]

/-- Witness for claim C5 at concrete inputs and the concrete string-length
encoder. -/
theorem calculateTokenCount_spec_sum_witness :
    calculateTokenCountE (fun s => some s.length) [⟨Sum.inl "ab"⟩] none none = some 2 ∧
    calculateTokenCountE (fun s => some s.length) [⟨Sum.inl "Hello"⟩] none none = some 5 := by
  constructor
  · exact (calculateTokenCount_spec_sum String.length rfl).1 [⟨Sum.inl "ab"⟩] none none rfl
  · exact (calculateTokenCount_spec_sum String.length rfl).2

/-- Claim C6 (counterexample): an encoding failure inside the structural
counter is not recovered by the character-based fallback; it propagates out of
calculateTokenCount (the claimed fallback would return ceil(5/4) = 2 for the
message Hello). -/
theorem tokenizer_failure_not_recovered :
    calculateTokenCountE (fun _ => none) [⟨Sum.inl "Hello"⟩] none none = none := rfl

/-- Claim C6 (amended): countTokens itself never fails: it returns the
encoder's count when encoding succeeds and falls back to the character-based
estimate ceil(length/4) when encoding fails; the structural counter, by
contrast, applies the encoder with no try/catch and propagates the failure. -/
theorem countTokens_fallback_spec :
    (∀ (enc : String → Option Nat) (text : String) (n : Nat),
       enc text = some n → countTokens enc text = n) ∧
    (∀ (enc : String → Option Nat) (text : String),
       enc text = none → countTokens enc text = (text.length + 3) / 4) ∧
    (∀ enc : String → Option Nat, enc "Hello" = none →
       calculateTokenCountE enc [⟨Sum.inl "Hello"⟩] none none = none) := by
  refine ⟨?_, ?_, ?_⟩
  · intro enc text n h
    simp [countTokens, h]
  · intro enc text h
    simp [countTokens, h]
  · intro enc h
    simp [calculateTokenCountE, messagesTokensE, List.foldlM, h]

/-- Witness for claim C6 at the concrete always-failing and always-succeeding
encoders. -/
theorem countTokens_fallback_spec_witness :
    countTokens (fun _ => none) "Hello" = 2 ∧
    countTokens (fun _ => some 7) "Hello" = 7 ∧
    calculateTokenCountE (fun _ => none) [⟨Sum.inl "Hello"⟩] none none = none :=
  ⟨countTokens_fallback_spec.2.1 (fun _ => none) "Hello" rfl,
   countTokens_fallback_spec.1 (fun _ => some 7) "Hello" 7 rfl,
   countTokens_fallback_spec.2.2 (fun _ => none) rfl⟩

end Tokens

namespace Transform

/-- Claim C1 (counterexample): on a backend response whose first choice has
finish_reason tool_calls, the response translator produces a null stop reason,
not tool_use as the claimed mapping table requires. -/
theorem stop_reason_tool_calls_goes_to_null :
    (convertOpenAIToAnthropic
        ⟨"id0", [⟨some ⟨Role.assistant, some "x"⟩, some "tool_calls"⟩], none⟩
        "m").stop_reason = none ∧
    (convertOpenAIToAnthropic
        ⟨"id0", [⟨some ⟨Role.assistant, some "x"⟩, some "tool_calls"⟩], none⟩
        "m").stop_reason ≠ some "tool_use" := by
  constructor
  · rfl
  · decide

/-- Claim C1 (amended): the finish-reason table actually implemented maps stop
to end_turn and everything else, tool_calls and an absent finish reason
included, to null. -/
theorem stop_reason_table (response : OpenAIResponse) (m : String) :
    (convertOpenAIToAnthropic response m).stop_reason
      = specMapFinishReason ((response.choices.head?).bind (fun c => c.finish_reason)) :=
  rfl

/-- Claim C4: for every backend response, the stop reason produced by the
response translator belongs to the set consisting of end_turn, max_tokens,
tool_use and null.  The translator is a total function of its arguments, so it
never throws. -/
theorem stop_reason_in_allowed_set (response : OpenAIResponse) (m : String) :
    (convertOpenAIToAnthropic response m).stop_reason
      ∈ [some "end_turn", some "max_tokens", some "tool_use", (none : Option String)] := by
  have h : (convertOpenAIToAnthropic response m).stop_reason
      = if ((response.choices.head?).bind (fun c => c.finish_reason)) = some "stop"
        then some "end_turn" else none := rfl
  rw [h]
  split <;> simp

/-- Claim C2 (counterexample): a message whose block array holds a tool_use
block and a sourceless image block translates to an empty part array; the
blocks do not appear in the output at all, so they are not passed through
untouched. -/
theorem other_blocks_are_dropped :
    ((convertAnthropicToOpenAI
        { model := "m"
          messages := [⟨Role.user, Sum.inr [{ type := "tool_use", id := some "t1" },
                                            { type := "image" }]⟩]
          max_tokens := 5 }).messages.map (fun m => m.content)) = [Sum.inr []] :=
  rfl

/-- The inner push-loop over one block array equals the block-by-block
filter-map description. -/
theorem anthropicBlocksToParts_eq (blocks : List AnthropicContentBlock) :
    anthropicBlocksToParts blocks = blocks.filterMap specBlockToPart := by
  unfold anthropicBlocksToParts
  rw [foldl_filterMap_of _ specBlockToPart ?_ blocks []]
  · simp
  · intro acc b
    unfold specBlockToPart
    split_ifs with h1 h2
    · simp
    · cases hs : b.source <;> simp
    · simp

/-- Per-message form of the request translator. -/
theorem anthropicMessageToOpenAI_eq (m : AnthropicMessage) :
    anthropicMessageToOpenAI m = ⟨m.role, specMapContent m.content⟩ := by
  unfold anthropicMessageToOpenAI specMapContent
  cases h : m.content with
  | inl s => simp
  | inr blocks => simp [anthropicBlocksToParts_eq]

/-- Message-list form of the request translator: the synthetic system message
(emitted only for a truthy, that is present and non-empty, system prompt)
followed by every message mapped through the block-by-block content mapping,
in order. -/
theorem convertAnthropicToOpenAI_messages_aux (request : AnthropicRequest) :
    (convertAnthropicToOpenAI request).messages
      = (match request.system with
         | some s => if s ≠ "" then [⟨Role.system, Sum.inl s⟩] else []
         | none => ([] : List OpenAIMessage))
        ++ request.messages.map (fun m => ⟨m.role, specMapContent m.content⟩) := by
  show (request.messages.foldl (fun acc msg => acc ++ [anthropicMessageToOpenAI msg]) _) = _
  rw [foldl_append_of _ anthropicMessageToOpenAI (fun acc x => rfl)]
  congr 1
  exact List.map_congr_left (fun m _ => anthropicMessageToOpenAI_eq m)

/-- Claim C2 (amended): the request translator maps block-array content
block-by-block, text blocks to text parts (absent text becoming the empty
string), image blocks with a source to an image_url part carrying the data URI
data:mediaType;base64,data, and drops every other block (tool_use, tool_result,
and image blocks without a source); string content and message order are
preserved, after the synthetic system message emitted for a truthy (present
and non-empty) system prompt. -/
theorem convertAnthropicToOpenAI_blockwise (request : AnthropicRequest) :
    (convertAnthropicToOpenAI request).messages
      = (match request.system with
         | some s => if s ≠ "" then [⟨Role.system, Sum.inl s⟩] else []
         | none => ([] : List OpenAIMessage))
        ++ request.messages.map (fun m => ⟨m.role, specMapContent m.content⟩) :=
  convertAnthropicToOpenAI_messages_aux request

/-- Claim C7: for a request with no tools whose messages all carry string
content, translation is lossless in the roles, the contents, the model and the
max-token budget, and the temperature and stream options are copied verbatim
(absent stays absent): the translated messages are exactly the original
role/content pairs in order, after the synthetic system message emitted for a
truthy (present and non-empty) system prompt. -/
theorem string_request_lossless (request : AnthropicRequest)
    (hstr : ∀ m ∈ request.messages, ∃ s, m.content = Sum.inl s)
    (_htools : request.tools = none) :
    (convertAnthropicToOpenAI request).model = request.model ∧
    (convertAnthropicToOpenAI request).max_tokens = request.max_tokens ∧
    (convertAnthropicToOpenAI request).temperature = request.temperature ∧
    (convertAnthropicToOpenAI request).stream = request.stream ∧
    (convertAnthropicToOpenAI request).messages
      = (match request.system with
         | some s => if s ≠ "" then [⟨Role.system, Sum.inl s⟩] else []
         | none => ([] : List OpenAIMessage))
        ++ request.messages.map (fun m =>
            ⟨m.role, Sum.inl (match m.content with | Sum.inl s => s | Sum.inr _ => "")⟩) := by
  refine ⟨rfl, rfl, rfl, rfl, ?_⟩
  rw [convertAnthropicToOpenAI_messages_aux]
  congr 1
  apply List.map_congr_left
  intro m hm
  obtain ⟨s, hs⟩ := hstr m hm
  simp [specMapContent, hs]

/-- Witness for claim C7 at a concrete request. -/
theorem string_request_lossless_witness :
    (convertAnthropicToOpenAI ⟨"m", [⟨Role.user, Sum.inl "Hi"⟩], none, 10, none, none, none⟩).messages
      = [⟨Role.user, Sum.inl "Hi"⟩] ∧
    (convertAnthropicToOpenAI ⟨"m", [⟨Role.user, Sum.inl "Hi"⟩], none, 10, none, none, none⟩).max_tokens
      = 10 := by
  have h := string_request_lossless ⟨"m", [⟨Role.user, Sum.inl "Hi"⟩], none, 10, none, none, none⟩
    (by intro m hm
        rw [List.mem_singleton] at hm
        exact ⟨"Hi", by rw [hm]⟩)
    rfl
  exact ⟨h.2.2.2.2, h.2.1⟩

/-- Claim C8: degenerate backend responses degrade without error: zero choices
give empty content and a null stop reason; an absent or null message text gives
empty content (the content field itself always exists by construction of
AnthropicResponse); an absent usage block gives zero input and output tokens. -/
theorem degenerate_responses :
    (∀ (r : OpenAIResponse) (m : String), r.choices = [] →
       (convertOpenAIToAnthropic r m).content = [] ∧
       (convertOpenAIToAnthropic r m).stop_reason = none) ∧
    (∀ (r : OpenAIResponse) (m : String) (c : OpenAIChoice),
       r.choices.head? = some c → c.message.bind (fun mm => mm.content) = none →
       (convertOpenAIToAnthropic r m).content = []) ∧
    (∀ (r : OpenAIResponse) (m : String), r.usage = none →
       (convertOpenAIToAnthropic r m).usage.input_tokens = 0 ∧
       (convertOpenAIToAnthropic r m).usage.output_tokens = 0) := by
  refine ⟨?_, ?_, ?_⟩
  · intro r m h
    constructor <;> simp [convertOpenAIToAnthropic, h]
  · intro r m c hc hnull
    cases hm : c.message with
    | none => simp [convertOpenAIToAnthropic, hc, hm]
    | some mm =>
        rw [hm] at hnull
        simp at hnull
        simp [convertOpenAIToAnthropic, hc, hm, hnull]
  · intro r m h
    constructor <;> simp [convertOpenAIToAnthropic, h]

/-- Witness for claim C8 at concrete degenerate responses. -/
theorem degenerate_responses_witness :
    (convertOpenAIToAnthropic ⟨"i", [], none⟩ "m").content = [] ∧
    (convertOpenAIToAnthropic ⟨"i", [], none⟩ "m").stop_reason = none ∧
    (convertOpenAIToAnthropic ⟨"j", [⟨some ⟨Role.assistant, none⟩, some "stop"⟩], some ⟨7, 3⟩⟩
        "m").content = [] ∧
    (convertOpenAIToAnthropic ⟨"i", [], none⟩ "m").usage.input_tokens = 0 ∧
    (convertOpenAIToAnthropic ⟨"i", [], none⟩ "m").usage.output_tokens = 0 :=
  ⟨(degenerate_responses.1 ⟨"i", [], none⟩ "m" rfl).1,
   (degenerate_responses.1 ⟨"i", [], none⟩ "m" rfl).2,
   degenerate_responses.2.1 ⟨"j", [⟨some ⟨Role.assistant, none⟩, some "stop"⟩], some ⟨7, 3⟩⟩
     "m" ⟨some ⟨Role.assistant, none⟩, some "stop"⟩ rfl rfl,
   (degenerate_responses.2.2 ⟨"i", [], none⟩ "m" rfl).1,
   (degenerate_responses.2.2 ⟨"i", [], none⟩ "m" rfl).2⟩

end Transform

namespace Routes

/-- Claim C9: when the last message is from the assistant the preprocessing
step appends a synthetic user message with content Continue.; when it is not
(or there is no message at all) the request is unchanged; and in every case the
result never ends with an assistant message. -/
theorem fixTrailingAssistant_spec (req : AnthropicRequest) :
    (∀ m, req.messages.getLast? = some m → m.role = Role.assistant →
       fixTrailingAssistant req
         = { req with messages := req.messages ++ [⟨Role.user, Sum.inl "Continue."⟩] }) ∧
    ((∀ m, req.messages.getLast? = some m → m.role ≠ Role.assistant) →
       fixTrailingAssistant req = req) ∧
    (∀ m, (fixTrailingAssistant req).messages.getLast? = some m →
       m.role ≠ Role.assistant) := by
  refine ⟨?_, ?_, ?_⟩
  · intro m hm hrole
    unfold fixTrailingAssistant
    rw [hm]
    simp [hrole]
  · intro hall
    unfold fixTrailingAssistant
    cases hl : req.messages.getLast? with
    | none => rfl
    | some m => simp [hall m hl]
  · intro m hm
    cases hl : req.messages.getLast? with
    | none =>
        have hfix : fixTrailingAssistant req = req := by
          unfold fixTrailingAssistant
          rw [hl]
        rw [hfix, hl] at hm
        exact absurd hm (by simp)
    | some lastMsg =>
        by_cases hr : lastMsg.role = Role.assistant
        · have hfix : fixTrailingAssistant req
              = { req with messages := req.messages ++ [⟨Role.user, Sum.inl "Continue."⟩] } := by
            unfold fixTrailingAssistant
            rw [hl]
            simp [hr]
          rw [hfix] at hm
          simp only [List.getLast?_concat] at hm
          cases hm
          simp
        · have hfix : fixTrailingAssistant req = req := by
            unfold fixTrailingAssistant
            rw [hl]
            simp [hr]
          rw [hfix, hl] at hm
          cases hm
          exact hr

/-- Witness for claim C9 at a concrete request ending with an assistant
message. -/
theorem fixTrailingAssistant_spec_witness :
    fixTrailingAssistant ⟨"m", [⟨Role.assistant, Sum.inl "hi"⟩], none, 5, none, none, none⟩
      = ⟨"m", [⟨Role.assistant, Sum.inl "hi"⟩, ⟨Role.user, Sum.inl "Continue."⟩],
          none, 5, none, none, none⟩ :=
  (fixTrailingAssistant_spec ⟨"m", [⟨Role.assistant, Sum.inl "hi"⟩], none, 5, none, none, none⟩).1
    ⟨Role.assistant, Sum.inl "hi"⟩ rfl rfl

/-- The per-message step keeps the role. -/
theorem normMessage_role (m : AnthropicMessage) : (normMessage m).role = m.role := by
  cases h : m.content <;> simp [normMessage, h]

/-- The per-message step keeps string-content messages unchanged. -/
theorem normMessage_inl (m : AnthropicMessage) (s : String) (h : m.content = Sum.inl s) :
    normMessage m = m := by
  simp [normMessage, h]

/-- The per-message step maps block arrays pointwise. -/
theorem normMessage_inr (m : AnthropicMessage) (blocks : List AnthropicContentBlock)
    (h : m.content = Sum.inr blocks) :
    (normMessage m).content = Sum.inr (blocks.map normBlock) := by
  simp [normMessage, h]

/-- Claim C10: the tool-ID preprocessing step keeps every non-message field of
the request, keeps the number and order of the messages and each message's
role, keeps string-content messages unchanged, and rewrites each block array
pointwise: a tool_result block carrying a (non-empty, per the source's
truthiness test) tool_use_id gets its id field set to that value, every other
block is unchanged. -/
theorem normalizeToolIds_spec (req : AnthropicRequest) :
    ((normalizeToolIds req).model = req.model ∧
     (normalizeToolIds req).system = req.system ∧
     (normalizeToolIds req).max_tokens = req.max_tokens ∧
     (normalizeToolIds req).temperature = req.temperature ∧
     (normalizeToolIds req).stream = req.stream ∧
     (normalizeToolIds req).tools = req.tools) ∧
    (normalizeToolIds req).messages.length = req.messages.length ∧
    ∀ (i : Nat) (hi : i < req.messages.length) (hi2 : i < (normalizeToolIds req).messages.length),
      ((normalizeToolIds req).messages.get ⟨i, hi2⟩).role = (req.messages.get ⟨i, hi⟩).role ∧
      (∀ s, (req.messages.get ⟨i, hi⟩).content = Sum.inl s →
         (normalizeToolIds req).messages.get ⟨i, hi2⟩ = req.messages.get ⟨i, hi⟩) ∧
      ∀ blocks, (req.messages.get ⟨i, hi⟩).content = Sum.inr blocks →
        ((normalizeToolIds req).messages.get ⟨i, hi2⟩).content
          = Sum.inr (blocks.map (fun b =>
              if b.type = "tool_result" then
                match b.tool_use_id with
                | some t => if t ≠ "" then { b with id := some t } else b
                | none => b
              else b)) := by
  refine ⟨⟨rfl, rfl, rfl, rfl, rfl, rfl⟩, by simp [normalizeToolIds], ?_⟩
  intro i hi hi2
  have hget : (normalizeToolIds req).messages.get ⟨i, hi2⟩
      = normMessage (req.messages.get ⟨i, hi⟩) := by
    simp [normalizeToolIds, List.get_eq_getElem]
  rw [hget]
  refine ⟨normMessage_role _, ?_, ?_⟩
  · intro s hs
    exact normMessage_inl _ s hs
  · intro blocks hb
    have hfun : (fun b : AnthropicContentBlock =>
        if b.type = "tool_result" then
          match b.tool_use_id with
          | some t => if t ≠ "" then { b with id := some t } else b
          | none => b
        else b) = normBlock := by
      funext b
      rfl
    rw [hfun]
    exact normMessage_inr _ blocks hb

/-- Witness for claim C10 at a concrete request holding one tool_result block
with a tool_use_id and a missing id. -/
theorem normalizeToolIds_spec_witness :
    ((normalizeToolIds
        ⟨"m", [⟨Role.user, Sum.inr [⟨"tool_result", none, none, none, some "abc"⟩]⟩],
          none, 5, none, none, none⟩).messages.get
        ⟨0, by simp [normalizeToolIds]⟩).content
      = Sum.inr [⟨"tool_result", none, none, some "abc", some "abc"⟩] := by
  have h := ((normalizeToolIds_spec
      ⟨"m", [⟨Role.user, Sum.inr [⟨"tool_result", none, none, none, some "abc"⟩]⟩],
        none, 5, none, none, none⟩).2.2 0 (by simp) (by simp [normalizeToolIds])).2.2
      [⟨"tool_result", none, none, none, some "abc"⟩] rfl
  simpa using h

end Routes

namespace IdNorm

/-- Padding-and-truncation always yields exactly 9 characters. -/
theorem padTo9_length (t : String) : (padTo9 t).length = 9 := by
  unfold padTo9
  simp only [String.length]
  rw [List.length_take, List.length_append, List.length_replicate]
  omega

/-- Claim C3: the forward mapping of the tool-call ID normalizer is a pure
function, so normalizing the same string twice yields the same short ID; the
short ID is base36(fnv1a_32(s)) truncated/padded to exactly 9 characters, and
its length is always exactly 9. -/
theorem shortToolId_spec (s : String) :
    shortToolId s = shortToolId s ∧
    shortToolId s = padTo9 (base36 (fnv1a32 s)) ∧
    (shortToolId s).length = 9 :=
  ⟨rfl, rfl, padTo9_length (base36 (fnv1a32 s))⟩

end IdNorm

end Toktoken
